import Mathlib

/-!
Verification of the OpenSSL transport integration of librdkafka 1.3.0
(`src/plugins/out_kafka/librdkafka-1.3.0/src/rdkafka_ssl.c`).

The OpenSSL library itself is external to the file under study, so its
behaviour is abstracted into explicit environment records: the thread-local
error queue is a list of entries, `SSL_get_error` classifications are an
inductive type, and each fallible `SSL_CTX_*` call is an oracle boolean.
Every definition below is a direct translation of the corresponding C
function; comments cite the C identifiers.
-/

namespace RdkafkaSsl

/-- One entry of the OpenSSL thread-local error queue as observed through
`ERR_get_error_line_data`: the source file and line recorded with the error,
the rendered error-code string (what `ERR_error_string_n` produces for the
code), the optional text data, and whether the `ERR_TXT_STRING` flag is set
on the entry. -/
structure ErrEntry where
  file : String
  line : Nat
  codeStr : String
  data : String
  hasTxt : Bool
deriving Repr, DecidableEq

/-- Formatting of one queue entry performed inside the loop of
`rd_kafka_ssl_error`: `rd_snprintf(errstr, errstr_size, "%s:%d: %s: %s",
file, line, buf, (flags & ERR_TXT_STRING) ? data : "")`. -/
def errEntryFormat (e : ErrEntry) : String :=
  e.file ++ ":" ++ toString e.line ++ ": " ++ e.codeStr ++ ": " ++
    (if e.hasTxt then e.data else "")

/-- A log emission: `brokerScoped = true` models `rd_rkb_log` (the `rkb`
argument was non-NULL), `false` models the `rd_kafka_log` fallback. -/
structure LogEvent where
  brokerScoped : Bool
  msg : String
deriving Repr, DecidableEq

/-- Loop body of `rd_kafka_ssl_error`: `while ((l = ERR_get_error_line_data
(...)) != 0)` pops the oldest entry; when `cnt++ > 0` the previously
formatted `errstr` is logged first; the popped entry is then formatted into
`errstr`.  After the loop, `if (cnt == 0)` the buffer is set to
`"No error"`.  The pair returned is the final `errstr` contents and the list
of log emissions in order. -/
def sslErrorLoop (rkb : Bool) (errstr : String) (cnt : Nat) :
    List ErrEntry → String × List LogEvent
  | [] => (if cnt = 0 then "No error" else errstr, [])
  | e :: queue =>
      let logs : List LogEvent := if 0 < cnt then [⟨rkb, errstr⟩] else []
      let r := sslErrorLoop rkb (errEntryFormat e) (cnt + 1) queue
      (r.1, logs ++ r.2)

/-- Model of `rd_kafka_ssl_error(rk, rkb, errstr, errstr_size)`: drains the
whole error queue (oldest first), returning the final formatted `errstr`
and the log trail.  `rkb` records whether broker-scoped logging was
available. -/
def rd_kafka_ssl_error (rkb : Bool) (queue : List ErrEntry) :
    String × List LogEvent :=
  sslErrorLoop rkb "" 0 queue

lemma sslErrorLoop_pos (rkb : Bool) (errstr : String) (cnt : Nat)
    (hc : 0 < cnt) (init : List ErrEntry) (last : ErrEntry) :
    sslErrorLoop rkb errstr cnt (init ++ [last]) =
      (errEntryFormat last,
       ⟨rkb, errstr⟩ :: init.map (fun e => ⟨rkb, errEntryFormat e⟩)) := by
  induction init generalizing errstr cnt with
  | nil =>
      simp [sslErrorLoop, hc, Nat.pos_iff_ne_zero.mp hc]
  | cons e rest ih =>
      have := ih (errEntryFormat e) (cnt + 1) (Nat.succ_pos cnt)
      simp [sslErrorLoop, hc, this]

lemma ssl_error_eq (rkb : Bool) :
    (∀ init last, rd_kafka_ssl_error rkb (init ++ [last]) =
      (errEntryFormat last,
       init.map (fun e => ⟨rkb, errEntryFormat e⟩))) ∧
    rd_kafka_ssl_error rkb [] = ("No error", []) := by
  constructor
  · intro init last
    cases init with
    | nil => simp [rd_kafka_ssl_error, sslErrorLoop]
    | cons e rest =>
        have := sslErrorLoop_pos rkb (errEntryFormat e) 1 Nat.one_pos rest last
        simp [rd_kafka_ssl_error, sslErrorLoop, this]
  · simp [rd_kafka_ssl_error, sslErrorLoop]

/-- Claim C7: for every state of the crypto error queue,
`rd_kafka_ssl_error` pops entries oldest first; every popped entry except
the last is logged (scoped by the presence of a connection context), the
last popped entry is formatted as `"file:line: codestring: data"` into the
output buffer and returned, and an empty queue yields the literal
`"No error"` sentinel. -/
theorem ssl_error_drain_spec (rkb : Bool) (init : List ErrEntry)
    (last : ErrEntry) :
    rd_kafka_ssl_error rkb (init ++ [last]) =
      (errEntryFormat last,
       init.map (fun e => ⟨rkb, errEntryFormat e⟩)) ∧
    rd_kafka_ssl_error rkb [] = ("No error", []) :=
  ⟨(ssl_error_eq rkb).1 init last, (ssl_error_eq rkb).2⟩

/-- Classification returned by `SSL_get_error` for a failed `SSL_*` call.
The `default` branch of the C switch is modelled by `other`. -/
inductive SslErr where
  | wantRead
  | wantWrite
  | wantConnect
  | syscall
  | zeroReturn
  | other (code : Nat)
deriving Repr, DecidableEq

/-- Environment consulted by `rd_kafka_transport_ssl_io_update`: the OpenSSL
thread-local error queue (`ERR_peek_error` returns non-zero exactly when it
is non-empty), the socket errno `rd_socket_errno` (0 meaning no OS error),
and the `rd_strerror` rendering of errno values. -/
structure IoEnv where
  queue : List ErrEntry
  socketErrno : Nat
  strerror : Nat → String

/-- Socket readiness directions requested through
`rd_kafka_transport_poll_set`. -/
inductive PollDir where
  | pollin
  | pollout
deriving Repr, DecidableEq

/-- Result of `rd_kafka_transport_ssl_io_update`: `ok poll` models return
value 0 after requesting the given readiness, `fatal errstr` models return
value -1 with `errstr` filled in. -/
inductive IoUpdate where
  | ok (poll : PollDir)
  | fatal (errstr : String)
deriving Repr, DecidableEq

/-- Model of `rd_kafka_transport_ssl_io_update(rktrans, ret, errstr,
errstr_size)` after `SSL_get_error` has classified the failed call as
`serr`.  In the `SSL_ERROR_SYSCALL` branch, `serr2 = ERR_peek_error()` is
non-zero exactly when the queue is non-empty.  The broker handle passed to
`rd_kafka_ssl_error` is `rktrans->rktrans_rkb`, hence broker-scoped
logging. -/
def rd_kafka_transport_ssl_io_update (env : IoEnv) (serr : SslErr) :
    IoUpdate :=
  match serr with
  | .wantRead => .ok .pollin
  | .wantWrite => .ok .pollout
  | .wantConnect => .ok .pollout
  | .syscall =>
      if env.queue = [] ∧ env.socketErrno = 0 then .fatal "Disconnected"
      else if env.queue ≠ [] then
        .fatal (rd_kafka_ssl_error true env.queue).1
      else
        .fatal ("SSL transport error: " ++ env.strerror env.socketErrno)
  | .zeroReturn => .fatal "Disconnected"
  | .other _ => .fatal (rd_kafka_ssl_error true env.queue).1

/-- Claim C2: the outcome classifier produces exactly the four documented
classes — wants-read requests read readiness (non-fatal), wants-write and
wants-connect request write readiness (non-fatal), a syscall failure yields
"Disconnected" when queue and errno are both clear, the drained-queue
diagnostic when the queue is non-empty, and the OS error description when
only errno is set, a zero-return yields "Disconnected", and every other
code drains the queue into one fatal diagnostic; no other outcome value is
possible. -/
theorem io_update_classification (env : IoEnv) (serr : SslErr) :
    rd_kafka_transport_ssl_io_update env .wantRead = .ok .pollin ∧
    rd_kafka_transport_ssl_io_update env .wantWrite = .ok .pollout ∧
    rd_kafka_transport_ssl_io_update env .wantConnect = .ok .pollout ∧
    (env.queue = [] → env.socketErrno = 0 →
      rd_kafka_transport_ssl_io_update env .syscall = .fatal "Disconnected") ∧
    (env.queue ≠ [] →
      rd_kafka_transport_ssl_io_update env .syscall =
        .fatal (rd_kafka_ssl_error true env.queue).1) ∧
    (env.queue = [] → env.socketErrno ≠ 0 →
      rd_kafka_transport_ssl_io_update env .syscall =
        .fatal ("SSL transport error: " ++ env.strerror env.socketErrno)) ∧
    rd_kafka_transport_ssl_io_update env .zeroReturn = .fatal "Disconnected" ∧
    (∀ c, rd_kafka_transport_ssl_io_update env (.other c) =
      .fatal (rd_kafka_ssl_error true env.queue).1) ∧
    (rd_kafka_transport_ssl_io_update env serr = .ok .pollin ∨
     rd_kafka_transport_ssl_io_update env serr = .ok .pollout ∨
     rd_kafka_transport_ssl_io_update env serr = .fatal "Disconnected" ∨
     rd_kafka_transport_ssl_io_update env serr =
       .fatal (rd_kafka_ssl_error true env.queue).1 ∨
     rd_kafka_transport_ssl_io_update env serr =
       .fatal ("SSL transport error: " ++ env.strerror env.socketErrno)) := by
  refine ⟨rfl, rfl, rfl, ?_, ?_, ?_, rfl, fun c => rfl, ?_⟩
  · intro hq he
    simp [rd_kafka_transport_ssl_io_update, hq, he]
  · intro hq
    simp [rd_kafka_transport_ssl_io_update, hq]
  · intro hq he
    simp [rd_kafka_transport_ssl_io_update, hq, he]
  · cases serr with
    | wantRead => exact Or.inl rfl
    | wantWrite => exact Or.inr (Or.inl rfl)
    | wantConnect => exact Or.inr (Or.inl rfl)
    | syscall =>
        by_cases hq : env.queue = []
        · by_cases he : env.socketErrno = 0
          · refine Or.inr (Or.inr (Or.inl ?_))
            simp [rd_kafka_transport_ssl_io_update, hq, he]
          · refine Or.inr (Or.inr (Or.inr (Or.inr ?_)))
            simp [rd_kafka_transport_ssl_io_update, hq, he]
        · refine Or.inr (Or.inr (Or.inr (Or.inl ?_)))
          simp [rd_kafka_transport_ssl_io_update, hq]
    | zeroReturn => exact Or.inr (Or.inr (Or.inl rfl))
    | other c => exact Or.inr (Or.inr (Or.inr (Or.inl rfl)))

/-- Environment used for concrete witness evaluations: empty error queue,
no OS errno, trivial strerror rendering. -/
def envEmpty : IoEnv :=
  { queue := [], socketErrno := 0, strerror := fun _ => "" }

/-- Witness for C2: at the concrete environment with empty queue and zero
errno, the syscall branch yields the fatal "Disconnected" diagnostic. -/
theorem io_update_classification_wit :
    rd_kafka_transport_ssl_io_update envEmpty .syscall =
      .fatal "Disconnected" :=
  (io_update_classification envEmpty .syscall).2.2.2.1 rfl rfl

/-- Result of one `SSL_write` or `SSL_read` call on the session:
`transferred n` models a positive return value `r = n > 0` (bytes moved),
`failed serr` models `r <= 0` with `SSL_get_error` classifying the failure
as `serr`. -/
inductive SslStep where
  | transferred (n : Nat)
  | failed (serr : SslErr)
deriving Repr, DecidableEq

/-- Model of `rd_slice_peeker(slice, &p)`: the next contiguous readable
chunk of the slice.  A slice is a list of byte segments; empty segments are
skipped; the result is the first non-empty segment together with the
remaining segments, or `none` when the slice is exhausted (the C call
returns length 0). -/
def slicePeek : List (List Nat) → Option (List Nat × List (List Nat))
  | [] => none
  | [] :: rest => slicePeek rest
  | (b :: bs) :: rest => some (b :: bs, rest)

/-- Total number of readable bytes left in a slice. -/
def sliceBytes (segs : List (List Nat)) : Nat :=
  (segs.map List.length).sum

/-- Model of `rd_buf_get_writable(rbuf, &p)`: the size of the next
contiguous writable chunk of the buffer.  A buffer is a list of remaining
chunk capacities; zero capacities are skipped; `none` means no writable
space is left (the C call returns 0 and the loop ends). -/
def bufWritable : List Nat → Option (Nat × List Nat)
  | [] => none
  | 0 :: rest => bufWritable rest
  | (n + 1) :: rest => some (n + 1, rest)

/-- Total writable capacity left in a buffer. -/
def bufCapacity (chunks : List Nat) : Nat :=
  chunks.sum

/-- Outcome of a send/receive call: `ok sum rest` models returning the
accumulated non-negative byte count `sum` with the cursor advanced to
`rest`; `fatal errstr rest` models returning -1; `panic` models the
`rd_assert` (send) or the buffer-write bound (recv) firing because the
library reported more bytes than the current chunk holds. -/
inductive IoResult (α : Type) where
  | ok (sum : Nat) (rest : α)
  | fatal (errstr : String) (rest : α)
  | panic
deriving Repr, DecidableEq

/-- Loop of `rd_kafka_transport_ssl_send`: peek the next contiguous chunk;
call `SSL_write` (the next oracle step); on `r <= 0` classify via
`rd_kafka_transport_ssl_io_update` and return -1 (fatal) or the
accumulated `sum`; on `r > 0` advance the slice by exactly `r` bytes
(`rd_slice_read`, whose result the C code asserts equals `r`), add `r` to
`sum`, and stop the loop if the write was short (`r < rlen`). When the
oracle trace is exhausted the call is modelled as stopping with the
progress so far. -/
def sendLoop (env : IoEnv) :
    List SslStep → List (List Nat) → Nat → IoResult (List (List Nat))
  | steps, segs, sum =>
    match slicePeek segs, steps with
    | none, _ => .ok sum []
    | some (chunk, rest), [] => .ok sum (chunk :: rest)
    | some (chunk, rest), .failed serr :: _ =>
      match rd_kafka_transport_ssl_io_update env serr with
      | .fatal e => .fatal e (chunk :: rest)
      | .ok _ => .ok sum (chunk :: rest)
    | some (chunk, rest), .transferred n :: more =>
      if n ≤ chunk.length then
        if n < chunk.length then .ok (sum + n) (chunk.drop n :: rest)
        else sendLoop env more (chunk.drop n :: rest) (sum + n)
      else .panic

/-- Model of `rd_kafka_transport_ssl_send(rktrans, slice, errstr,
errstr_size)`: clears the error state then runs the write loop with zero
accumulated progress. -/
def rd_kafka_transport_ssl_send (env : IoEnv) (steps : List SslStep)
    (slice : List (List Nat)) : IoResult (List (List Nat)) :=
  sendLoop env steps slice 0

/-- Loop of `rd_kafka_transport_ssl_recv`: get the next writable chunk
size; call `SSL_read`; on `r <= 0` classify via
`rd_kafka_transport_ssl_io_update`; on `r > 0` advance the buffer write
position by exactly `r` (`rd_buf_write`), add `r` to `sum`, and stop if the
read was short (`r < len`). -/
def recvLoop (env : IoEnv) :
    List SslStep → List Nat → Nat → IoResult (List Nat)
  | steps, chunks, sum =>
    match bufWritable chunks, steps with
    | none, _ => .ok sum []
    | some (len, rest), [] => .ok sum (len :: rest)
    | some (len, rest), .failed serr :: _ =>
      match rd_kafka_transport_ssl_io_update env serr with
      | .fatal e => .fatal e (len :: rest)
      | .ok _ => .ok sum (len :: rest)
    | some (len, rest), .transferred n :: more =>
      if n ≤ len then
        if n < len then .ok (sum + n) ((len - n) :: rest)
        else recvLoop env more ((len - n) :: rest) (sum + n)
      else .panic

/-- Model of `rd_kafka_transport_ssl_recv(rktrans, rbuf, errstr,
errstr_size)`. -/
def rd_kafka_transport_ssl_recv (env : IoEnv) (steps : List SslStep)
    (buf : List Nat) : IoResult (List Nat) :=
  recvLoop env steps buf 0

lemma slicePeek_none {segs : List (List Nat)} (h : slicePeek segs = none) :
    sliceBytes segs = 0 := by
  induction segs with
  | nil => simp [sliceBytes]
  | cons seg rest ih =>
      cases seg with
      | nil =>
          simp only [slicePeek] at h
          simp [sliceBytes, List.map_cons, List.sum_cons]
          have := ih h
          simpa [sliceBytes] using this
      | cons b bs => simp [slicePeek] at h

lemma slicePeek_some {segs : List (List Nat)} {chunk : List Nat}
    {rest : List (List Nat)} (h : slicePeek segs = some (chunk, rest)) :
    sliceBytes segs = chunk.length + sliceBytes rest ∧ chunk ≠ [] := by
  induction segs with
  | nil => simp [slicePeek] at h
  | cons seg tail ih =>
      cases seg with
      | nil =>
          simp only [slicePeek] at h
          have := ih h
          constructor
          · simpa [sliceBytes] using this.1
          · exact this.2
      | cons b bs =>
          simp only [slicePeek, Option.some_inj] at h
          obtain ⟨h1, h2⟩ := Prod.mk.injEq _ _ _ _ ▸ h
          subst h1
          subst h2
          simp [sliceBytes]

lemma bufWritable_none {chunks : List Nat} (h : bufWritable chunks = none) :
    bufCapacity chunks = 0 := by
  induction chunks with
  | nil => simp [bufCapacity]
  | cons c rest ih =>
      cases c with
      | zero =>
          simp only [bufWritable] at h
          simpa [bufCapacity] using ih h
      | succ m => simp [bufWritable] at h

lemma bufWritable_some {chunks : List Nat} {len : Nat} {rest : List Nat}
    (h : bufWritable chunks = some (len, rest)) :
    bufCapacity chunks = len + bufCapacity rest ∧ 0 < len := by
  induction chunks with
  | nil => simp [bufWritable] at h
  | cons c tail ih =>
      cases c with
      | zero =>
          simp only [bufWritable] at h
          have := ih h
          constructor
          · simpa [bufCapacity] using this.1
          · exact this.2
      | succ m =>
          simp only [bufWritable, Option.some_inj] at h
          obtain ⟨h1, h2⟩ := Prod.mk.injEq _ _ _ _ ▸ h
          subst h1
          subst h2
          simp [bufCapacity]

lemma sendLoop_peek_none {segs : List (List Nat)} (env : IoEnv)
    (steps : List SslStep) (sum : Nat) (hp : slicePeek segs = none) :
    sendLoop env steps segs sum = .ok sum [] := by
  rw [sendLoop.eq_def]
  simp [hp]

lemma sendLoop_nil {segs : List (List Nat)} {chunk : List Nat}
    {rest : List (List Nat)}
    (env : IoEnv) (sum : Nat) (hp : slicePeek segs = some (chunk, rest)) :
    sendLoop env [] segs sum = .ok sum (chunk :: rest) := by
  rw [sendLoop.eq_def]
  simp [hp]

lemma sendLoop_failed {segs : List (List Nat)} {chunk : List Nat}
    {rest : List (List Nat)}
    (env : IoEnv) (serr : SslErr) (more : List SslStep) (sum : Nat)
    (hp : slicePeek segs = some (chunk, rest)) :
    sendLoop env (.failed serr :: more) segs sum =
      match rd_kafka_transport_ssl_io_update env serr with
      | .fatal e => .fatal e (chunk :: rest)
      | .ok _ => .ok sum (chunk :: rest) := by
  rw [sendLoop.eq_def]
  simp [hp]

lemma sendLoop_transferred {segs : List (List Nat)} {chunk : List Nat}
    {rest : List (List Nat)}
    (env : IoEnv) (n : Nat) (more : List SslStep) (sum : Nat)
    (hp : slicePeek segs = some (chunk, rest)) :
    sendLoop env (.transferred n :: more) segs sum =
      if n ≤ chunk.length then
        if n < chunk.length then .ok (sum + n) (chunk.drop n :: rest)
        else sendLoop env more (chunk.drop n :: rest) (sum + n)
      else .panic := by
  rw [sendLoop.eq_def]
  simp [hp]

lemma recvLoop_peek_none {chunks : List Nat} (env : IoEnv)
    (steps : List SslStep) (sum : Nat) (hp : bufWritable chunks = none) :
    recvLoop env steps chunks sum = .ok sum [] := by
  rw [recvLoop.eq_def]
  simp [hp]

lemma recvLoop_nil {chunks : List Nat} {len : Nat} {rest : List Nat}
    (env : IoEnv) (sum : Nat) (hp : bufWritable chunks = some (len, rest)) :
    recvLoop env [] chunks sum = .ok sum (len :: rest) := by
  rw [recvLoop.eq_def]
  simp [hp]

lemma recvLoop_failed {chunks : List Nat} {len : Nat} {rest : List Nat}
    (env : IoEnv) (serr : SslErr) (more : List SslStep) (sum : Nat)
    (hp : bufWritable chunks = some (len, rest)) :
    recvLoop env (.failed serr :: more) chunks sum =
      match rd_kafka_transport_ssl_io_update env serr with
      | .fatal e => .fatal e (len :: rest)
      | .ok _ => .ok sum (len :: rest) := by
  rw [recvLoop.eq_def]
  simp [hp]

lemma recvLoop_transferred {chunks : List Nat} {len : Nat} {rest : List Nat}
    (env : IoEnv) (n : Nat) (more : List SslStep) (sum : Nat)
    (hp : bufWritable chunks = some (len, rest)) :
    recvLoop env (.transferred n :: more) chunks sum =
      if n ≤ len then
        if n < len then .ok (sum + n) ((len - n) :: rest)
        else recvLoop env more ((len - n) :: rest) (sum + n)
      else .panic := by
  rw [recvLoop.eq_def]
  simp [hp]

lemma sendLoop_ok_accounting (env : IoEnv) (steps : List SslStep) :
    ∀ segs sum total rest,
      sendLoop env steps segs sum = .ok total rest →
      total + sliceBytes rest = sum + sliceBytes segs := by
  induction steps with
  | nil =>
      intro segs sum total rest h
      cases hp : slicePeek segs with
      | none =>
          rw [sendLoop_peek_none env [] sum hp] at h
          injection h with h1 h2
          subst h1; subst h2
          have h0 := slicePeek_none hp
          simp [sliceBytes] at h0 ⊢
          omega
      | some pr =>
          obtain ⟨chunk, rest0⟩ := pr
          rw [sendLoop_nil env sum hp] at h
          injection h with h1 h2
          subst h1; subst h2
          have hb := (slicePeek_some hp).1
          simp [sliceBytes] at hb ⊢
          omega
  | cons step more ih =>
      intro segs sum total rest h
      cases hp : slicePeek segs with
      | none =>
          rw [sendLoop_peek_none env (step :: more) sum hp] at h
          injection h with h1 h2
          subst h1; subst h2
          have h0 := slicePeek_none hp
          simp [sliceBytes] at h0 ⊢
          omega
      | some pr =>
          obtain ⟨chunk, rest0⟩ := pr
          have hb := (slicePeek_some hp).1
          cases step with
          | failed serr =>
              rw [sendLoop_failed env serr more sum hp] at h
              cases hu : rd_kafka_transport_ssl_io_update env serr with
              | fatal e => simp [hu] at h
              | ok p =>
                  simp only [hu] at h
                  injection h with h1 h2
                  subst h1; subst h2
                  simp [sliceBytes] at hb ⊢
                  omega
          | transferred n =>
              rw [sendLoop_transferred env n more sum hp] at h
              by_cases hle : n ≤ chunk.length
              · rw [if_pos hle] at h
                by_cases hlt : n < chunk.length
                · rw [if_pos hlt] at h
                  injection h with h1 h2
                  subst h1; subst h2
                  simp [sliceBytes] at hb ⊢
                  omega
                · rw [if_neg hlt] at h
                  have hres := ih _ _ _ _ h
                  simp [sliceBytes] at hres hb ⊢
                  omega
              · rw [if_neg hle] at h
                simp at h

lemma recvLoop_ok_accounting (env : IoEnv) (steps : List SslStep) :
    ∀ chunks sum total rest,
      recvLoop env steps chunks sum = .ok total rest →
      total + bufCapacity rest = sum + bufCapacity chunks := by
  induction steps with
  | nil =>
      intro chunks sum total rest h
      cases hp : bufWritable chunks with
      | none =>
          rw [recvLoop_peek_none env [] sum hp] at h
          injection h with h1 h2
          subst h1; subst h2
          have h0 := bufWritable_none hp
          simp [bufCapacity] at h0 ⊢
          omega
      | some pr =>
          obtain ⟨len, rest0⟩ := pr
          rw [recvLoop_nil env sum hp] at h
          injection h with h1 h2
          subst h1; subst h2
          have hb := (bufWritable_some hp).1
          simp [bufCapacity] at hb ⊢
          omega
  | cons step more ih =>
      intro chunks sum total rest h
      cases hp : bufWritable chunks with
      | none =>
          rw [recvLoop_peek_none env (step :: more) sum hp] at h
          injection h with h1 h2
          subst h1; subst h2
          have h0 := bufWritable_none hp
          simp [bufCapacity] at h0 ⊢
          omega
      | some pr =>
          obtain ⟨len, rest0⟩ := pr
          have hb := (bufWritable_some hp).1
          cases step with
          | failed serr =>
              rw [recvLoop_failed env serr more sum hp] at h
              cases hu : rd_kafka_transport_ssl_io_update env serr with
              | fatal e => simp [hu] at h
              | ok p =>
                  simp only [hu] at h
                  injection h with h1 h2
                  subst h1; subst h2
                  simp [bufCapacity] at hb ⊢
                  omega
          | transferred n =>
              rw [recvLoop_transferred env n more sum hp] at h
              by_cases hle : n ≤ len
              · rw [if_pos hle] at h
                by_cases hlt : n < len
                · rw [if_pos hlt] at h
                  injection h with h1 h2
                  subst h1; subst h2
                  simp [bufCapacity] at hb ⊢
                  omega
                · rw [if_neg hlt] at h
                  have hres := ih _ _ _ _ h
                  simp [bufCapacity] at hres hb ⊢
                  omega
              · rw [if_neg hle] at h
                simp at h

lemma sendLoop_fatal_from_classifier (env : IoEnv) (steps : List SslStep) :
    ∀ segs sum e rest,
      sendLoop env steps segs sum = .fatal e rest →
      ∃ serr, SslStep.failed serr ∈ steps ∧
        rd_kafka_transport_ssl_io_update env serr = .fatal e := by
  induction steps with
  | nil =>
      intro segs sum e rest h
      cases hp : slicePeek segs with
      | none => rw [sendLoop_peek_none env [] sum hp] at h; simp at h
      | some pr =>
          obtain ⟨chunk, rest0⟩ := pr
          rw [sendLoop_nil env sum hp] at h
          simp at h
  | cons step more ih =>
      intro segs sum e rest h
      cases hp : slicePeek segs with
      | none => rw [sendLoop_peek_none env (step :: more) sum hp] at h; simp at h
      | some pr =>
          obtain ⟨chunk, rest0⟩ := pr
          cases step with
          | failed serr =>
              rw [sendLoop_failed env serr more sum hp] at h
              cases hu : rd_kafka_transport_ssl_io_update env serr with
              | fatal e2 =>
                  simp only [hu] at h
                  injection h with h1 h2
                  subst h1
                  exact ⟨serr, List.mem_cons_self _ _, hu⟩
              | ok p => simp [hu] at h
          | transferred n =>
              rw [sendLoop_transferred env n more sum hp] at h
              by_cases hle : n ≤ chunk.length
              · rw [if_pos hle] at h
                by_cases hlt : n < chunk.length
                · rw [if_pos hlt] at h; simp at h
                · rw [if_neg hlt] at h
                  obtain ⟨serr, hm, hu⟩ := ih _ _ _ _ h
                  exact ⟨serr, List.mem_cons_of_mem _ hm, hu⟩
              · rw [if_neg hle] at h; simp at h

lemma recvLoop_fatal_from_classifier (env : IoEnv) (steps : List SslStep) :
    ∀ chunks sum e rest,
      recvLoop env steps chunks sum = .fatal e rest →
      ∃ serr, SslStep.failed serr ∈ steps ∧
        rd_kafka_transport_ssl_io_update env serr = .fatal e := by
  induction steps with
  | nil =>
      intro chunks sum e rest h
      cases hp : bufWritable chunks with
      | none => rw [recvLoop_peek_none env [] sum hp] at h; simp at h
      | some pr =>
          obtain ⟨len, rest0⟩ := pr
          rw [recvLoop_nil env sum hp] at h
          simp at h
  | cons step more ih =>
      intro chunks sum e rest h
      cases hp : bufWritable chunks with
      | none => rw [recvLoop_peek_none env (step :: more) sum hp] at h; simp at h
      | some pr =>
          obtain ⟨len, rest0⟩ := pr
          cases step with
          | failed serr =>
              rw [recvLoop_failed env serr more sum hp] at h
              cases hu : rd_kafka_transport_ssl_io_update env serr with
              | fatal e2 =>
                  simp only [hu] at h
                  injection h with h1 h2
                  subst h1
                  exact ⟨serr, List.mem_cons_self _ _, hu⟩
              | ok p => simp [hu] at h
          | transferred n =>
              rw [recvLoop_transferred env n more sum hp] at h
              by_cases hle : n ≤ len
              · rw [if_pos hle] at h
                by_cases hlt : n < len
                · rw [if_pos hlt] at h; simp at h
                · rw [if_neg hlt] at h
                  obtain ⟨serr, hm, hu⟩ := ih _ _ _ _ h
                  exact ⟨serr, List.mem_cons_of_mem _ hm, hu⟩
              · rw [if_neg hle] at h; simp at h

/-- Claim C3: both transfer loops advance the cursor by exactly the bytes
the library reports per step, so an accumulated return equals the total
cursor advance (no byte lost or duplicated); a short step ends the loop
immediately (the result does not depend on the remaining oracle trace); a
non-fatal (would-block) classification returns the accumulated non-negative
progress; and a fatal return happens only when the classifier reported a
permanent error. -/
theorem ssl_send_recv_loop_spec (env : IoEnv) :
    (∀ steps segs total rest,
      rd_kafka_transport_ssl_send env steps segs = .ok total rest →
      total + sliceBytes rest = sliceBytes segs) ∧
    (∀ steps chunks total rest,
      rd_kafka_transport_ssl_recv env steps chunks = .ok total rest →
      total + bufCapacity rest = bufCapacity chunks) ∧
    (∀ n more chunk rest sum, 0 < n → n < List.length chunk →
      sendLoop env (.transferred n :: more) (chunk :: rest) sum =
        .ok (sum + n) (chunk.drop n :: rest)) ∧
    (∀ n more len rest sum, 0 < n → n < len →
      recvLoop env (.transferred n :: more) (len :: rest) sum =
        .ok (sum + n) ((len - n) :: rest)) ∧
    (∀ serr more chunk rest sum poll, chunk ≠ [] →
      rd_kafka_transport_ssl_io_update env serr = .ok poll →
      sendLoop env (.failed serr :: more) (chunk :: rest) sum =
        .ok sum (chunk :: rest)) ∧
    (∀ serr more len rest sum poll, 0 < len →
      rd_kafka_transport_ssl_io_update env serr = .ok poll →
      recvLoop env (.failed serr :: more) (len :: rest) sum =
        .ok sum (len :: rest)) ∧
    (∀ steps segs e rest,
      rd_kafka_transport_ssl_send env steps segs = .fatal e rest →
      ∃ serr, SslStep.failed serr ∈ steps ∧
        rd_kafka_transport_ssl_io_update env serr = .fatal e) ∧
    (∀ steps chunks e rest,
      rd_kafka_transport_ssl_recv env steps chunks = .fatal e rest →
      ∃ serr, SslStep.failed serr ∈ steps ∧
        rd_kafka_transport_ssl_io_update env serr = .fatal e) := by
  refine ⟨?_, ?_, ?_, ?_, ?_, ?_, ?_, ?_⟩
  · intro steps segs total rest h
    have := sendLoop_ok_accounting env steps segs 0 total rest h
    simpa using this
  · intro steps chunks total rest h
    have := recvLoop_ok_accounting env steps chunks 0 total rest h
    simpa using this
  · intro n more chunk rest sum hn hlt
    cases chunk with
    | nil => simp at hlt
    | cons b bs =>
        have hp : slicePeek ((b :: bs) :: rest) = some (b :: bs, rest) := rfl
        rw [sendLoop_transferred env n more sum hp]
        rw [if_pos (Nat.le_of_lt hlt), if_pos hlt]
  · intro n more len rest sum hn hlt
    cases len with
    | zero => simp at hlt
    | succ m =>
        have hp : bufWritable ((m + 1) :: rest) = some (m + 1, rest) := rfl
        rw [recvLoop_transferred env n more sum hp]
        rw [if_pos (Nat.le_of_lt hlt), if_pos hlt]
  · intro serr more chunk rest sum poll hne hu
    cases chunk with
    | nil => exact absurd rfl hne
    | cons b bs =>
        have hp : slicePeek ((b :: bs) :: rest) = some (b :: bs, rest) := rfl
        rw [sendLoop_failed env serr more sum hp, hu]
  · intro serr more len rest sum poll hlen hu
    cases len with
    | zero => simp at hlen
    | succ m =>
        have hp : bufWritable ((m + 1) :: rest) = some (m + 1, rest) := rfl
        rw [recvLoop_failed env serr more sum hp, hu]
  · intro steps segs e rest h
    exact sendLoop_fatal_from_classifier env steps segs 0 e rest h
  · intro steps chunks e rest h
    exact recvLoop_fatal_from_classifier env steps chunks 0 e rest h

/-- Witness for C3: a concrete two-chunk slice sent through two full write
steps accounts for all five bytes. -/
theorem ssl_send_recv_loop_spec_wit :
    5 + sliceBytes [] = sliceBytes [[1, 2], [3, 4, 5]] :=
  (ssl_send_recv_loop_spec envEmpty).1
    [.transferred 2, .transferred 3] [[1, 2], [3, 4, 5]] 5 [] (by decide)

/-- Claim C8: `rd_kafka_transport_ssl_recv` never reports more bytes
written than the destination buffer's writable capacity: an `ok` result's
count plus the remaining capacity equals the initial capacity, hence the
count is bounded by the initial capacity. -/
theorem ssl_recv_capacity_bound (env : IoEnv) (steps : List SslStep)
    (chunks : List Nat) (total : Nat) (rest : List Nat)
    (h : rd_kafka_transport_ssl_recv env steps chunks = .ok total rest) :
    total + bufCapacity rest = bufCapacity chunks ∧
    total ≤ bufCapacity chunks := by
  have := recvLoop_ok_accounting env steps chunks 0 total rest h
  constructor
  · simpa using this
  · omega

/-- Witness for C8: receiving three bytes into a four-byte buffer stays
within its capacity. -/
theorem ssl_recv_capacity_bound_wit :
    3 + bufCapacity [1] = bufCapacity [4] ∧ 3 ≤ bufCapacity [4] :=
  ssl_recv_capacity_bound envEmpty [.transferred 3] [4] 3 [1] (by decide)

/-- Environment of `rd_kafka_transport_ssl_verify`: whether
`ssl.enable_verify` is configured, whether `SSL_get_peer_certificate`
returned a certificate, the `SSL_get_verify_result` code (`0` is
`X509_V_OK`), and the `X509_verify_cert_error_string` rendering of
non-zero codes. -/
structure VerifyEnv where
  enableVerify : Bool
  peerCert : Bool
  verifyResult : Nat
  verifyErrStr : Nat → String

/-- Result of `rd_kafka_transport_ssl_verify`: `ok` models return 0,
`failed diag` models return -1 after `rd_kafka_broker_fail` with the given
diagnostic. -/
inductive VerifyOutcome where
  | ok
  | failed (diag : String)
deriving Repr, DecidableEq

/-- Model of `rd_kafka_transport_ssl_verify(rktrans)`: a no-op when
verification is disabled; fatal when no peer certificate was presented;
fatal with the library's own rendering of the validation failure when
`SSL_get_verify_result` is not `X509_V_OK`. -/
def rd_kafka_transport_ssl_verify (env : VerifyEnv) : VerifyOutcome :=
  if ¬ env.enableVerify then .ok
  else if ¬ env.peerCert then .failed "Broker did not provide a certificate"
  else if env.verifyResult ≠ 0 then
    .failed ("Failed to verify broker certificate: " ++
      env.verifyErrStr env.verifyResult)
  else .ok

/-- Bounded substring search modelling C `strstr` (true when the needle
occurs in the haystack). -/
def strStarts : List Char → List Char → Bool
  | _, [] => true
  | [], _ :: _ => false
  | h :: hs, n :: ns => (h = n) && strStarts hs ns

/-- Whether `needle` occurs anywhere in `hay` (C `strstr` non-NULL). -/
def strHasSub : List Char → List Char → Bool
  | [], needle => strStarts [] needle
  | h :: hs, needle => strStarts (h :: hs) needle || strHasSub hs needle

/-- Environment of one handshake step: the verification environment
consulted after `SSL_do_handshake` succeeds and the I/O environment
consulted when it does not. -/
structure HsEnv where
  verifyEnv : VerifyEnv
  ioEnv : IoEnv

/-- Result of `rd_kafka_transport_ssl_handshake`: `established` models
return 1 (with `rd_kafka_transport_connect_done` called), `inProgress`
models return 0, `failed diag` models return -1 after the session's
connection was failed with `diag`. -/
inductive HandshakeResult where
  | established
  | inProgress
  | failed (diag : String)
deriving Repr, DecidableEq

/-- Model of `rd_kafka_transport_ssl_handshake(rktrans)`.  The
`SSL_do_handshake` call is abstracted as `hs`: `none` models return value
1 (handshake primitive reports completion), `some serr` models a
non-positive return classified by `SSL_get_error` as `serr`.  On
completion the verification gate runs; otherwise the classifier decides
between continuing and failing with `"SSL handshake failed: ..."` (with
the client-authentication hint appended when the diagnostic contains
`"unexpected message"`). -/
def rd_kafka_transport_ssl_handshake (env : HsEnv) (hs : Option SslErr) :
    HandshakeResult :=
  match hs with
  | none =>
    match rd_kafka_transport_ssl_verify env.verifyEnv with
    | .failed diag => .failed diag
    | .ok => .established
  | some serr =>
    match rd_kafka_transport_ssl_io_update env.ioEnv serr with
    | .fatal e =>
        .failed ("SSL handshake failed: " ++ e ++
          (if strHasSub e.toList "unexpected message".toList then
            ": client authentication might be required (see broker log)"
          else ""))
    | .ok _ => .inProgress

/-- Claim C1: when the handshake primitive reports completion and peer
verification is enabled, the step reaches `established` only if a peer
certificate was presented and the verification result is OK; a missing
certificate always ends in `failed` with the missing-certificate
diagnostic, and a non-OK verification result always ends in `failed`
carrying the library's own rendering of the validation failure. -/
theorem handshake_verify_gate (env : HsEnv)
    (hv : env.verifyEnv.enableVerify = true) :
    (rd_kafka_transport_ssl_handshake env none = .established →
      env.verifyEnv.peerCert = true ∧ env.verifyEnv.verifyResult = 0) ∧
    (env.verifyEnv.peerCert = false →
      rd_kafka_transport_ssl_handshake env none =
        .failed "Broker did not provide a certificate") ∧
    (env.verifyEnv.peerCert = true → env.verifyEnv.verifyResult ≠ 0 →
      rd_kafka_transport_ssl_handshake env none =
        .failed ("Failed to verify broker certificate: " ++
          env.verifyEnv.verifyErrStr env.verifyEnv.verifyResult)) := by
  refine ⟨?_, ?_, ?_⟩
  · intro h
    by_cases hc : env.verifyEnv.peerCert = true
    · by_cases hr : env.verifyEnv.verifyResult = 0
      · exact ⟨hc, hr⟩
      · exfalso
        simp [rd_kafka_transport_ssl_handshake,
              rd_kafka_transport_ssl_verify, hv, hc, hr] at h
    · exfalso
      simp [rd_kafka_transport_ssl_handshake,
            rd_kafka_transport_ssl_verify, hv, hc] at h
  · intro hc
    simp [rd_kafka_transport_ssl_handshake,
          rd_kafka_transport_ssl_verify, hv, hc]
  · intro hc hr
    simp [rd_kafka_transport_ssl_handshake,
          rd_kafka_transport_ssl_verify, hv, hc, hr]

/-- Verification environment for witnesses: verification enabled, no peer
certificate presented. -/
def verifyEnvNoCert : VerifyEnv :=
  { enableVerify := true, peerCert := false, verifyResult := 0,
    verifyErrStr := fun _ => "" }

/-- Witness for C1: with verification enabled and no peer certificate the
completed handshake step fails with the missing-certificate diagnostic. -/
theorem handshake_verify_gate_wit :
    rd_kafka_transport_ssl_handshake ⟨verifyEnvNoCert, envEmpty⟩ none =
      .failed "Broker did not provide a certificate" :=
  (handshake_verify_gate ⟨verifyEnvNoCert, envEmpty⟩ rfl).2.1 rfl

/-- The parts of an X509 certificate observed by the verification hook:
its subject and issuer one-line renderings (`X509_NAME_oneline`). -/
structure Cert where
  subject : String
  issuer : String
deriving Repr, DecidableEq

/-- Outcome of the application verification callback
`rk->rk_conf.ssl.cert_verify_cb`: its accept/reject return, the value it
left in the in/out `x509_error` parameter, and the diagnostic it wrote to
`errstr`. -/
structure AppCbResult where
  accept : Bool
  xerr : Nat
  diag : String
deriving Repr, DecidableEq

/-- Environment of `rd_kafka_transport_ssl_cert_verify_cb`: the current
certificate of the chain context (`X509_STORE_CTX_get_current_cert`, `none`
when NULL), whether `i2d_X509` serialization succeeded, the chain error
code on entry (`X509_STORE_CTX_get_error`), and the application callback as
a function of the `x509_error` value passed in (its other arguments —
hostname, node id, depth, DER bytes — do not influence this model's
control flow). -/
structure VerifyCbEnv where
  cert : Option Cert
  derOk : Bool
  origError : Nat
  appCb : Nat → AppCbResult

/-- Observable outcome of the hook: its 0/1 return (`ret = true` meaning
certificate accepted), the chain context's error state after the hook
(`X509_STORE_CTX` error), and the error log lines emitted. -/
structure VerifyCbOut where
  ret : Bool
  ctxError : Nat
  logs : List String
deriving Repr, DecidableEq

/-- Model of `rd_kafka_transport_ssl_cert_verify_cb(preverify_ok,
x509_ctx)`.  A missing current certificate or a failed DER conversion logs
and rejects without consulting the application.  Otherwise the application
callback runs with `x509_error` initialized to the chain's entry error; on
reject the chain error is overwritten with the callback's value and the
subject/issuer/diagnostic line is logged; on accept the chain error is
explicitly cleared only when it was non-zero on entry and the callback set
it to zero. -/
def rd_kafka_transport_ssl_cert_verify_cb (env : VerifyCbEnv) :
    VerifyCbOut :=
  match env.cert with
  | none =>
      ⟨false, env.origError, ["Failed to get current certificate to verify"]⟩
  | some cert =>
    if ¬ env.derOk then
      ⟨false, env.origError, ["Unable to convert certificate to X509 format"]⟩
    else
      let r := env.appCb env.origError
      if ¬ r.accept then
        ⟨false, r.xerr,
         ["Certificate (subject=" ++ cert.subject ++ ", issuer=" ++
          cert.issuer ++ ") verification callback failed: " ++ r.diag]⟩
      else
        ⟨true, if env.origError ≠ 0 ∧ r.xerr = 0 then 0 else env.origError,
         []⟩

/-- Claim C5: whenever the application callback is reached, a rejection
stores the callback's (possibly modified) error code into the chain's
error state and logs the certificate's subject, issuer and the callback's
diagnostic before reporting rejection; an acceptance that cleared a
previously non-zero entry error resets the chain's error state to zero
before reporting acceptance. -/
theorem cert_verify_cb_spec (env : VerifyCbEnv) (c : Cert)
    (hc : env.cert = some c) (hd : env.derOk = true) :
    ((env.appCb env.origError).accept = false →
      rd_kafka_transport_ssl_cert_verify_cb env =
        ⟨false, (env.appCb env.origError).xerr,
         ["Certificate (subject=" ++ c.subject ++ ", issuer=" ++ c.issuer ++
          ") verification callback failed: " ++
          (env.appCb env.origError).diag]⟩) ∧
    ((env.appCb env.origError).accept = true → env.origError ≠ 0 →
      (env.appCb env.origError).xerr = 0 →
      rd_kafka_transport_ssl_cert_verify_cb env = ⟨true, 0, []⟩) := by
  constructor
  · intro ha
    simp [rd_kafka_transport_ssl_cert_verify_cb, hc, hd, ha]
  · intro ha h0 hx
    simp [rd_kafka_transport_ssl_cert_verify_cb, hc, hd, ha, h0, hx]

/-- Application callback used in witnesses: always rejects with error code
7 and a fixed diagnostic. -/
def appCbReject : Nat → AppCbResult :=
  fun _ => ⟨false, 7, "bad cert"⟩

/-- Witness for C5: a concrete rejection stores the callback's error code
and logs subject, issuer and diagnostic. -/
theorem cert_verify_cb_spec_wit :
    rd_kafka_transport_ssl_cert_verify_cb
      ⟨some ⟨"CN=s", "CN=i"⟩, true, 5, appCbReject⟩ =
      ⟨false, 7,
       ["Certificate (subject=CN=s, issuer=CN=i) verification callback " ++
        "failed: bad cert"]⟩ :=
  (cert_verify_cb_spec ⟨some ⟨"CN=s", "CN=i"⟩, true, 5, appCbReject⟩
    ⟨"CN=s", "CN=i"⟩ rfl rfl).1 rfl

/-- Claim C9: the verification hook fails closed — a missing current
certificate or a failed DER serialization yields rejection, and acceptance
is reported only when the certificate and its serialization were available
and the application callback itself accepted. -/
theorem cert_verify_cb_fail_closed (env : VerifyCbEnv) :
    (env.cert = none →
      (rd_kafka_transport_ssl_cert_verify_cb env).ret = false) ∧
    (env.derOk = false →
      (rd_kafka_transport_ssl_cert_verify_cb env).ret = false) ∧
    ((rd_kafka_transport_ssl_cert_verify_cb env).ret = true →
      ∃ c, env.cert = some c ∧ env.derOk = true ∧
        (env.appCb env.origError).accept = true) := by
  refine ⟨?_, ?_, ?_⟩
  · intro hc
    simp [rd_kafka_transport_ssl_cert_verify_cb, hc]
  · intro hd
    cases hc : env.cert with
    | none => simp [rd_kafka_transport_ssl_cert_verify_cb, hc]
    | some c => simp [rd_kafka_transport_ssl_cert_verify_cb, hc, hd]
  · intro hr
    cases hc : env.cert with
    | none => simp [rd_kafka_transport_ssl_cert_verify_cb, hc] at hr
    | some c =>
        by_cases hd : env.derOk = true
        · by_cases ha : (env.appCb env.origError).accept = true
          · exact ⟨c, rfl, hd, ha⟩
          · exfalso
            simp [rd_kafka_transport_ssl_cert_verify_cb, hc, hd, ha] at hr
        · exfalso
          simp only [Bool.not_eq_true] at hd
          simp [rd_kafka_transport_ssl_cert_verify_cb, hc, hd] at hr

/-- Witness for C9: with no current certificate the hook rejects. -/
theorem cert_verify_cb_fail_closed_wit :
    (rd_kafka_transport_ssl_cert_verify_cb
      ⟨none, true, 0, appCbReject⟩).ret = false :=
  (cert_verify_cb_fail_closed ⟨none, true, 0, appCbReject⟩).1 rfl

/-- The `strrchr`-based port stripping of
`rd_kafka_transport_ssl_set_endpoint_id`: `if ((t = strrchr(name, ':')))
*t = '\x00';` truncates the nodename at its last colon. -/
def stripPort (name : String) : String :=
  let cs := name.toList
  if cs.contains ':' then
    String.mk (((cs.reverse.dropWhile (fun c => c != ':')).drop 1).reverse)
  else name

/-- Character set of the IPv6-literal test:
`strspn(name, "0123456789abcdefABCDEF:.[]%")`. -/
def ipv6Chars : List Char := "0123456789abcdefABCDEF:.[]%".toList

/-- The source's numeric-IPv6 test: the name contains a colon and consists
only of hex digits, colons, dots, brackets and percent. -/
def isNumericalIpv6 (cs : List Char) : Bool :=
  cs.contains ':' && cs.all (fun c => ipv6Chars.contains c)

/-- The source's numeric-IPv4 test: `strspn(name, "0123456789.") ==
strlen(name)`. -/
def isNumericalIpv4 (cs : List Char) : Bool :=
  cs.all (fun c => ("0123456789.".toList).contains c)

/-- Oracle outcomes of the OpenSSL calls made by
`rd_kafka_transport_ssl_set_endpoint_id` (modern-OpenSSL configuration:
TLSEXT available, `SSL_set1_host` used for endpoint identification), plus
the error queue drained on failure. -/
structure EndpointEnv where
  setTlsextOk : Bool
  setHostOk : Bool
  queue : List ErrEntry

/-- Model of `rd_kafka_transport_ssl_set_endpoint_id(rktrans, errstr,
errstr_size)`.  The broker nodename is copied, its port suffix stripped;
the name is sent for SNI (`SSL_set_tlsext_host_name`) only when it is not
a numeric IPv4/IPv6 literal; when `ssl.endpoint.identification.algorithm`
is not NONE the stripped name is installed for endpoint identification
(`SSL_set1_host`).  On success the pair (SNI hostname if sent, endpoint
identification hostname if enabled) is returned; on failure the drained
error-queue diagnostic. -/
def rd_kafka_transport_ssl_set_endpoint_id (nodename : String)
    (endpointIdentification : Bool) (env : EndpointEnv) :
    Except String (Option String × Option String) :=
  let name := stripPort nodename
  let numerical := isNumericalIpv6 name.toList || isNumericalIpv4 name.toList
  if ¬ numerical ∧ env.setTlsextOk = false then
    .error (rd_kafka_ssl_error true env.queue).1
  else if endpointIdentification = false then
    .ok (if numerical then none else some name, none)
  else if env.setHostOk = false then
    .error (rd_kafka_ssl_error true env.queue).1
  else
    .ok (if numerical then none else some name, some name)

/-- Claim C6: session setup strips the port suffix (the text from the last
colon onward) from the nodename; on success the stripped name is the one
installed for endpoint identification whenever that is enabled, and it is
sent as the SNI hostname exactly when it is not a numeric IPv4/IPv6
literal; in particular nodename "broker.example.com:9093" yields hostname
"broker.example.com". -/
theorem set_endpoint_id_spec (nodename : String) (endpointId : Bool)
    (env : EndpointEnv) (sni idHost : Option String) :
    (rd_kafka_transport_ssl_set_endpoint_id nodename endpointId env =
        .ok (sni, idHost) →
      (endpointId = true → idHost = some (stripPort nodename)) ∧
      sni = (if isNumericalIpv6 (stripPort nodename).toList ||
                isNumericalIpv4 (stripPort nodename).toList then none
             else some (stripPort nodename))) ∧
    stripPort "broker.example.com:9093" = "broker.example.com" := by
  constructor
  · intro h
    simp only [rd_kafka_transport_ssl_set_endpoint_id] at h
    by_cases hn : (isNumericalIpv6 (stripPort nodename).toList ||
        isNumericalIpv4 (stripPort nodename).toList) = true
    · simp only [hn] at h ⊢
      cases endpointId with
      | false =>
          simp at h
          refine ⟨fun hff => absurd hff (by simp), ?_⟩
          simp [h.1]
      | true =>
          by_cases hh : env.setHostOk = false
          · simp [hh] at h
          · simp only [Bool.not_eq_false] at hh
            simp [hh] at h
            exact ⟨fun _ => h.2.symm, h.1.symm⟩
    · simp only [Bool.not_eq_true] at hn
      simp only [hn] at h ⊢
      by_cases ht : env.setTlsextOk = false
      · simp [ht] at h
      · simp only [Bool.not_eq_false] at ht
        simp only [ht] at h
        cases endpointId with
        | false =>
            simp at h
            refine ⟨fun hff => absurd hff (by simp), ?_⟩
            simp [h.1.symm]
        | true =>
            by_cases hh : env.setHostOk = false
            · simp [hh] at h
            · simp only [Bool.not_eq_false] at hh
              simp [hh] at h
              exact ⟨fun _ => h.2.symm, h.1.symm⟩
  · decide

/-- Witness for C6: a symbolic hostname with a port suffix, endpoint
identification enabled and both library calls succeeding, yields the
stripped name both as SNI and as the identification hostname. -/
theorem set_endpoint_id_spec_wit :
    some "broker.example.com" = some (stripPort "broker.example.com:9093") ∧
    (some "broker.example.com" : Option String) =
      (if isNumericalIpv6 (stripPort "broker.example.com:9093").toList ||
          isNumericalIpv4 (stripPort "broker.example.com:9093").toList
       then none else some (stripPort "broker.example.com:9093")) ∧
    stripPort "broker.example.com:9093" = "broker.example.com" := by
  have h := set_endpoint_id_spec "broker.example.com:9093" true
    ⟨true, true, []⟩ (some "broker.example.com") (some "broker.example.com")
  have h1 := h.1 rfl
  exact ⟨h1.1 rfl, h1.2, h.2⟩

/-- Model of `rd_kafka_transport_ssl_passwd_cb(buf, size, rwflag,
userdata)`: with no configured `ssl.key.password` it warns and returns -1
writing nothing; otherwise it copies `RD_MIN(pwlen, size)` bytes of the
passphrase into the buffer and returns `pwlen` unconditionally.  The
result is the C return value paired with the bytes written into `buf`. -/
def rd_kafka_transport_ssl_passwd_cb (key_password : Option String)
    (size : Nat) : Int × List Char :=
  match key_password with
  | none => (-1, [])
  | some pw => ((pw.length : Int), pw.toList.take (min pw.length size))

/-- Claim C10: with no configured passphrase the password callback returns
the -1 failure sentinel and writes nothing; with a passphrase of length L
and buffer capacity S it writes exactly min(L, S) bytes of the passphrase
but returns L unconditionally, which exceeds the bytes written when
L > S. -/
theorem passwd_cb_spec (key_password : Option String) (size : Nat) :
    (key_password = none →
      rd_kafka_transport_ssl_passwd_cb key_password size = (-1, [])) ∧
    (∀ pw, key_password = some pw →
      (rd_kafka_transport_ssl_passwd_cb key_password size).2 =
        pw.toList.take (min pw.length size) ∧
      (rd_kafka_transport_ssl_passwd_cb key_password size).2.length =
        min pw.length size ∧
      (rd_kafka_transport_ssl_passwd_cb key_password size).1 =
        (pw.length : Int) ∧
      (size < pw.length →
        ((rd_kafka_transport_ssl_passwd_cb key_password size).2.length : Int) <
          (rd_kafka_transport_ssl_passwd_cb key_password size).1)) := by
  constructor
  · intro h
    simp [rd_kafka_transport_ssl_passwd_cb, h]
  · intro pw h
    subst h
    refine ⟨rfl, ?_, rfl, ?_⟩
    · simp [rd_kafka_transport_ssl_passwd_cb]
    · intro hs
      simp [rd_kafka_transport_ssl_passwd_cb]
      omega

/-- Witness for C10: a five-character passphrase against a three-byte
buffer writes three bytes but returns five. -/
theorem passwd_cb_spec_wit :
    (rd_kafka_transport_ssl_passwd_cb (some "kafka") 3).2 =
      "kafka".toList.take (min "kafka".length 3) ∧
    (rd_kafka_transport_ssl_passwd_cb (some "kafka") 3).2.length =
      min "kafka".length 3 ∧
    (rd_kafka_transport_ssl_passwd_cb (some "kafka") 3).1 =
      ("kafka".length : Int) ∧
    (((rd_kafka_transport_ssl_passwd_cb (some "kafka") 3).2.length : Int) <
      (rd_kafka_transport_ssl_passwd_cb (some "kafka") 3).1) := by
  have h := (passwd_cb_spec (some "kafka") 3).2 "kafka" rfl
  exact ⟨h.1, h.2.1, h.2.2.1, h.2.2.2 (by decide)⟩

/-- The SSL configuration fields of `rk->rk_conf.ssl` consulted by
`rd_kafka_ssl_set_certs`: `ca` and `cert` and `key` model the in-memory
objects set with `rd_kafka_conf_set_ssl_cert` (present or not), the
`*_location` and `*_pem` fields model the corresponding string options.
The keystore password only flows into `PKCS12_parse`, whose outcome is an
oracle, so it carries no separate field. -/
structure SslCertConf where
  ca : Bool
  ca_location : Option String
  crl_location : Option String
  cert : Bool
  cert_location : Option String
  cert_pem : Option String
  key : Bool
  key_location : Option String
  key_pem : Option String
  keystore_location : Option String
deriving Repr, DecidableEq

/-- Oracle outcomes of the OpenSSL calls made by `rd_kafka_ssl_set_certs`,
one boolean per fallible call, in source order, plus the `rd_strerror`
text used when opening the keystore file fails. -/
structure CertsEnv where
  caLocationOk : Bool
  defaultPathsOk : Bool
  crlOk : Bool
  useCertMemOk : Bool
  useCertFileOk : Bool
  certPemParsed : Bool
  useCertPemOk : Bool
  useKeyMemOk : Bool
  useKeyFileOk : Bool
  keyPemParsed : Bool
  useKeyPemOk : Bool
  keystoreOpened : Bool
  p12Read : Bool
  p12Parsed : Bool
  useKeystoreCertOk : Bool
  useKeystoreKeyOk : Bool
  checkPrivateKeyOk : Bool
  errnoStr : String
deriving Repr, DecidableEq

/-- CA section of `rd_kafka_ssl_set_certs`: an in-memory store is moved
into the context (cannot fail); otherwise `ssl.ca.location` is loaded via
`SSL_CTX_load_verify_locations` (failure is fatal); otherwise the default
verify paths are applied with failures only logged, never fatal. -/
def caStage (conf : SslCertConf) (env : CertsEnv) : Except String Unit :=
  if conf.ca then .ok ()
  else match conf.ca_location with
    | some _ =>
        if env.caLocationOk then .ok ()
        else .error "ssl.ca.location failed: "
    | none => .ok ()

/-- CRL section: `ssl.crl.location` is loaded and CRL checking enabled;
load failure is fatal. -/
def crlStage (conf : SslCertConf) (env : CertsEnv) : Except String Unit :=
  match conf.crl_location with
  | some _ =>
      if env.crlOk then .ok () else .error "ssl.crl.location failed: "
  | none => .ok ()

/-- Certificate section: the in-memory certificate object, then
`ssl.certificate.location`, then `ssl.certificate.pem` (parse, then use)
are applied in order; each failure is fatal with the diagnostic naming the
option. -/
def certStage (conf : SslCertConf) (env : CertsEnv) : Except String Unit :=
  if conf.cert ∧ env.useCertMemOk = false then
    .error "ssl_cert failed: "
  else if conf.cert_location.isSome ∧ env.useCertFileOk = false then
    .error "ssl.certificate.location failed: "
  else if conf.cert_pem.isSome ∧ env.certPemParsed = false then
    .error "ssl.certificate.pem failed: not in PEM format?: "
  else if conf.cert_pem.isSome ∧ env.useCertPemOk = false then
    .error "ssl.certificate.pem failed: "
  else .ok ()

/-- In-memory key object section (`rk->rk_conf.ssl.key`): applies
`SSL_CTX_use_PrivateKey` and sets `check_pkey` (the returned boolean). -/
def keyMemStage (conf : SslCertConf) (env : CertsEnv) : Except String Bool :=
  if conf.key then
    if env.useKeyMemOk then .ok true
    else .error "ssl_key (in-memory) failed: "
  else .ok false

/-- Key file section (`ssl.key.location`): applies
`SSL_CTX_use_PrivateKey_file` and sets `check_pkey`. -/
def keyFileStage (conf : SslCertConf) (env : CertsEnv) :
    Except String Bool :=
  match conf.key_location with
  | some _ =>
      if env.useKeyFileOk then .ok true
      else .error "ssl.key.location failed: "
  | none => .ok false

/-- PEM key section (`ssl.key.pem`): parses the PEM string, applies the
key, scrubs the configured string (`rd_kafka_desensitize_str`), and sets
`check_pkey`. -/
def keyPemStage (conf : SslCertConf) (env : CertsEnv) :
    Except String Bool :=
  if conf.key_pem.isSome ∧ env.keyPemParsed = false then
    .error "ssl.key.pem failed: not in PEM format?: "
  else if conf.key_pem.isSome ∧ env.useKeyPemOk = false then
    .error "ssl.key.pem failed: "
  else .ok conf.key_pem.isSome

/-- Keystore section (`ssl.keystore.location`): opens the PKCS#12 file,
reads it, parses it with the configured password, applies its certificate
and private key, and sets `check_pkey`; each step's failure is fatal with
the corresponding diagnostic. -/
def keystoreStage (conf : SslCertConf) (env : CertsEnv) :
    Except String Bool :=
  match conf.keystore_location with
  | none => .ok false
  | some loc =>
      if env.keystoreOpened = false then
        .error ("Failed to open ssl.keystore.location: " ++ loc ++ ": " ++
          env.errnoStr)
      else if env.p12Read = false then
        .error "Error reading PKCS#12 file: "
      else if env.p12Parsed = false then
        .error ("Failed to parse PKCS#12 file: " ++ loc ++ ": ")
      else if env.useKeystoreCertOk = false then
        .error "Failed to use ssl.keystore.location certificate: "
      else if env.useKeystoreKeyOk = false then
        .error "Failed to use ssl.keystore.location private key: "
      else .ok true

/-- The body of `rd_kafka_ssl_set_certs` up to (but excluding) the final
`SSL_CTX_check_private_key` call, in source order, returning the
`check_pkey` flag accumulated across the four key-installing sections. -/
def setCertsPre (conf : SslCertConf) (env : CertsEnv) :
    Except String Bool :=
  match caStage conf env with
  | .error e => .error e
  | .ok _ =>
    match crlStage conf env with
    | .error e => .error e
    | .ok _ =>
      match certStage conf env with
      | .error e => .error e
      | .ok _ =>
        match keyMemStage conf env with
        | .error e => .error e
        | .ok k1 =>
          match keyFileStage conf env with
          | .error e => .error e
          | .ok k2 =>
            match keyPemStage conf env with
            | .error e => .error e
            | .ok k3 =>
              match keystoreStage conf env with
              | .error e => .error e
              | .ok k4 => .ok (k1 || k2 || k3 || k4)

/-- Model of `rd_kafka_ssl_set_certs(rk, ctx, errstr, errstr_size)`: after
all sections succeed, `if (check_pkey && SSL_CTX_check_private_key(ctx) !=
1)` fails construction with the key-check diagnostic. -/
def rd_kafka_ssl_set_certs (conf : SslCertConf) (env : CertsEnv) :
    Except String Unit :=
  match setCertsPre conf env with
  | .error e => .error e
  | .ok check_pkey =>
      if check_pkey ∧ env.checkPrivateKeyOk = false then
        .error "Private key check failed: "
      else .ok ()

/-- Whether at least one private-key source is configured: the in-memory
key object, `ssl.key.location`, `ssl.key.pem`, or
`ssl.keystore.location`. -/
def keySourcePresent (conf : SslCertConf) : Bool :=
  conf.key || conf.key_location.isSome || conf.key_pem.isSome ||
    conf.keystore_location.isSome

lemma keyMemStage_ok {conf env b} (h : keyMemStage conf env = .ok b) :
    b = conf.key := by
  cases hk : conf.key with
  | false =>
      simp [keyMemStage, hk] at h
      simp [h]
  | true =>
      simp only [keyMemStage, hk, if_true] at h
      cases ho : env.useKeyMemOk <;> simp [ho] at h
      simp [h]

lemma keyFileStage_ok {conf env b} (h : keyFileStage conf env = .ok b) :
    b = conf.key_location.isSome := by
  cases hk : conf.key_location with
  | none => simp [keyFileStage, hk] at h; simp [h]
  | some loc =>
      simp only [keyFileStage, hk] at h
      cases ho : env.useKeyFileOk <;> simp [ho] at h
      simp [h]

lemma keyPemStage_ok {conf env b} (h : keyPemStage conf env = .ok b) :
    b = conf.key_pem.isSome := by
  simp only [keyPemStage] at h
  split at h
  · exact absurd h (by simp)
  · split at h
    · exact absurd h (by simp)
    · injection h with h1
      exact h1.symm

lemma keystoreStage_ok {conf env b} (h : keystoreStage conf env = .ok b) :
    b = conf.keystore_location.isSome := by
  cases hk : conf.keystore_location with
  | none => simp [keystoreStage, hk] at h; simp [h]
  | some loc =>
      simp only [keystoreStage, hk] at h
      split at h
      · exact absurd h (by simp)
      · split at h
        · exact absurd h (by simp)
        · split at h
          · exact absurd h (by simp)
          · split at h
            · exact absurd h (by simp)
            · split at h
              · exact absurd h (by simp)
              · injection h with h1
                simp [hk, h1.symm]

lemma setCertsPre_ok_flag {conf env b} (h : setCertsPre conf env = .ok b) :
    b = keySourcePresent conf := by
  simp only [setCertsPre] at h
  cases h1 : caStage conf env with
  | error e => simp [h1] at h
  | ok u1 =>
    simp only [h1] at h
    cases h2 : crlStage conf env with
    | error e => simp [h2] at h
    | ok u2 =>
      simp only [h2] at h
      cases h3 : certStage conf env with
      | error e => simp [h3] at h
      | ok u3 =>
        simp only [h3] at h
        cases h4 : keyMemStage conf env with
        | error e => simp [h4] at h
        | ok k1 =>
          simp only [h4] at h
          cases h5 : keyFileStage conf env with
          | error e => simp [h5] at h
          | ok k2 =>
            simp only [h5] at h
            cases h6 : keyPemStage conf env with
            | error e => simp [h6] at h
            | ok k3 =>
              simp only [h6] at h
              cases h7 : keystoreStage conf env with
              | error e => simp [h7] at h
              | ok k4 =>
                simp only [h7] at h
                injection h with hb
                subst hb
                rw [keyMemStage_ok h4, keyFileStage_ok h5,
                    keyPemStage_ok h6, keystoreStage_ok h7]
                rfl

/-- Claim C4: the certificate/private-key match check runs at
configuration construction exactly when at least one private-key source
was installed — an `ok` prefix result's `check_pkey` flag equals the
presence of a key source; when the flag is set and the installed key does
not match, construction fails with the key-check diagnostic; when the
check passes, or no key source was installed (even with a failing check
oracle), the key check does not cause construction to fail. -/
theorem set_certs_key_check_spec (conf : SslCertConf) (env : CertsEnv) :
    (∀ b, setCertsPre conf env = .ok b → b = keySourcePresent conf) ∧
    (setCertsPre conf env = .ok true → env.checkPrivateKeyOk = false →
      rd_kafka_ssl_set_certs conf env = .error "Private key check failed: ") ∧
    (setCertsPre conf env = .ok false →
      rd_kafka_ssl_set_certs conf env = .ok ()) ∧
    (env.checkPrivateKeyOk = true → ∀ b, setCertsPre conf env = .ok b →
      rd_kafka_ssl_set_certs conf env = .ok ()) := by
  refine ⟨?_, ?_, ?_, ?_⟩
  · intro b h
    exact setCertsPre_ok_flag h
  · intro h hk
    simp [rd_kafka_ssl_set_certs, h, hk]
  · intro h
    simp [rd_kafka_ssl_set_certs, h]
  · intro hk b h
    simp [rd_kafka_ssl_set_certs, h, hk]

/-- Configuration used in the C4 witness: only an in-memory key object and
an in-memory certificate are installed. -/
def confKeyMem : SslCertConf :=
  { ca := false, ca_location := none, crl_location := none,
    cert := true, cert_location := none, cert_pem := none,
    key := true, key_location := none, key_pem := none,
    keystore_location := none }

/-- Oracle used in the C4 witness: every library call succeeds except the
final private-key match check. -/
def envKeyMismatch : CertsEnv :=
  { caLocationOk := true, defaultPathsOk := true, crlOk := true,
    useCertMemOk := true, useCertFileOk := true, certPemParsed := true,
    useCertPemOk := true, useKeyMemOk := true, useKeyFileOk := true,
    keyPemParsed := true, useKeyPemOk := true, keystoreOpened := true,
    p12Read := true, p12Parsed := true, useKeystoreCertOk := true,
    useKeystoreKeyOk := true, checkPrivateKeyOk := false,
    errnoStr := "" }

/-- Witness for C4: a configuration with an installed in-memory key whose
match check fails is rejected with the key-check diagnostic. -/
theorem set_certs_key_check_spec_wit :
    rd_kafka_ssl_set_certs confKeyMem envKeyMismatch =
      .error "Private key check failed: " :=
  (set_certs_key_check_spec confKeyMem envKeyMismatch).2.1 rfl rfl

end RdkafkaSsl
